import Mathlib

/-!
Verification of the Mnemosyne memory-service engine
(`server/app/storage/neo4j_storage.py`, `server/app/server.py`).

Modelling conventions:
* Python strings are shallowly embedded as `List Char` (`PyStr`): Python's
  `len`, slicing, `strip`, `rfind` and `lower` translate to list operations.
  `str.strip()` is modelled over the ASCII whitespace characters.
* Wall-clock time (`datetime.now`) and `datetime.fromisoformat` are external
  inputs: they are passed as explicit parameters (`now : ℚ`, a parse
  function `PyStr → Option ℚ` giving POSIX seconds, `none` exactly when the
  code would hit the `except (ValueError, TypeError)` fallback).
* Python floats are modelled as real numbers (`ℝ`); `0.5 ** x` is `Real.rpow`.
* The Neo4j graph is modelled as an in-memory state `DBState`: a list of
  `MemoryItem` nodes (each carrying its outgoing `TAGGED_WITH` edge multiset
  as a list of tag names) and a list of `Session` nodes.  `elementId` is a
  natural-number surrogate; the fresh id for a created node and the `_now()`
  timestamp are explicit parameters of the write operation.
* The external full-text index (`db.index.fulltext.queryNodes`) and the
  Python-side score ranking of bootstrap candidates are abstract function
  parameters (`ft`, `rank`); the source instantiates `rank` with a stable
  sort by `_score_item` descending, a function of the candidate list alone
  once the clock is fixed.
* `json.dumps`-encoded lists in responses (`tags`, session `decisions` /
  `next_steps`) are carried as the underlying string lists; the JSON
  round-trip is elided.
-/

set_option maxRecDepth 100000

namespace Mnemosyne

/-! ## Python string primitives -/

/-- A Python string, embedded as its list of characters. -/
abbrev PyStr := List Char

/-- String-literal convenience: the character list of a Lean string. -/
def pys (s : String) : PyStr := s.data

/-- ASCII whitespace, as recognised by Python's `str.strip`. -/
def isPySpace (c : Char) : Bool :=
  c = ' ' || c = '\t' || c = '\n' || c = '\r' || c = '\x0b' || c = '\x0c'

/-- Python `str.lstrip()`. -/
def pyLstrip (s : PyStr) : PyStr := s.dropWhile isPySpace

/-- Python `str.rstrip()`. -/
def pyRstrip (s : PyStr) : PyStr := (s.reverse.dropWhile isPySpace).reverse

/-- Python `str.strip()`. -/
def pyStrip (s : PyStr) : PyStr := pyRstrip (pyLstrip s)

/-- Python `str.lower()` (ASCII). -/
def pyLower (s : PyStr) : PyStr := s.map Char.toLower

/-- Python `hay.rfind(sep)`: highest index at which `sep` occurs as a
substring of `hay`, `-1` when absent. -/
def rfindSub (hay sep : PyStr) : Int :=
  match ((List.range (hay.length + 1)).filter
      (fun i => sep.isPrefixOf (hay.drop i))).getLast? with
  | some i => (i : Int)
  | none => -1

/-- Substring containment: Python's `in`, Cypher's `CONTAINS`. -/
def containsSub (hay needle : PyStr) : Bool :=
  (List.range (hay.length + 1)).any (fun i => needle.isPrefixOf (hay.drop i))

/-- Lexicographic (code-point) strict order on Python strings, as used by
the store's `ORDER BY` on ISO-8601 timestamp strings. -/
def pyStrLt : PyStr → PyStr → Bool
  | [], [] => false
  | [], _ :: _ => true
  | _ :: _, [] => false
  | a :: as, b :: bs => if a < b then true else if a = b then pyStrLt as bs else false

/-- Insertion into a list sorted descending by a string key. -/
def insertDescBy {α : Type} (key : α → PyStr) (x : α) : List α → List α
  | [] => [x]
  | y :: ys => if pyStrLt (key y) (key x) then x :: y :: ys else y :: insertDescBy key x ys

/-- Sort descending by a string key (models `ORDER BY ... DESC`). -/
def sortDescBy {α : Type} (key : α → PyStr) : List α → List α
  | [] => []
  | x :: xs => insertDescBy key x (sortDescBy key xs)

/-- Insertion into a list sorted descending by a rational key. -/
def insertDescByQ {α : Type} (key : α → ℚ) (x : α) : List α → List α
  | [] => [x]
  | y :: ys => if key y < key x then x :: y :: ys else y :: insertDescByQ key x ys

/-- Sort descending by a rational key (models `ORDER BY score DESC`). -/
def sortDescByQ {α : Type} (key : α → ℚ) : List α → List α
  | [] => []
  | x :: xs => insertDescByQ key x (sortDescByQ key xs)

/-! ## Content Shaper (`neo4j_storage.py` lines 55-119) -/

/-- The sentence separators tried, in priority order, by `_auto_compact`. -/
def compactSeps : List PyStr := [['\n'], ['.', ' '], ['!', ' '], ['?', ' ']]

/-- The `for sep in ...: idx = truncated.rfind(sep); if idx > max_chars // 2:
truncated = truncated[: idx + len(sep)].rstrip(); break` loop of
`_auto_compact` (`neo4j_storage.py` lines 66-70). -/
def autoCompactCut (truncated : PyStr) (maxChars : Nat) : PyStr :=
  match compactSeps.find? (fun sep => (maxChars / 2 : Int) < rfindSub truncated sep) with
  | some sep => pyRstrip (truncated.take ((rfindSub truncated sep).toNat + sep.length))
  | none => truncated

/-- `_auto_compact(content, max_chars)` (`neo4j_storage.py` lines 55-71). -/
def autoCompact (content : PyStr) (maxChars : Nat) : PyStr :=
  let c := pyStrip content
  if c.length ≤ maxChars then c
  else autoCompactCut (c.take maxChars) maxChars ++ ['…']

/-! ## Data model -/

/-- A `MemoryItem` node of the graph, with its outgoing `TAGGED_WITH` edges
carried as the `tags` list.  `nid` is the surrogate for the store-assigned
`elementId`; `importance` is `Option` because the stored property may be
null; an unset `workspace_hint` / `space_id` is carried as the empty
string. -/
structure Item where
  nid : Nat
  space_id : PyStr
  kind : PyStr
  title : PyStr
  content : PyStr
  content_compact : PyStr
  tags : List PyStr
  pinned : Bool
  created_at : PyStr
  updated_at : PyStr
  importance : Option Int
  workspace_hint : PyStr
  source : PyStr
deriving DecidableEq

/-- A `Session` node (`commit_session`).  Decisions and next steps are the
underlying string lists (JSON serialisation elided). -/
structure Session where
  nid : Nat
  workspace_hint : PyStr
  summary : PyStr
  decisions : List PyStr
  next_steps : List PyStr
  created_at : PyStr
  space_id : PyStr
deriving DecidableEq

/-- The graph store state: `MemoryItem` nodes and `Session` nodes. -/
structure DBState where
  items : List Item
  sessions : List Session
deriving DecidableEq

/-- `BootstrapMode` (`storage/base.py`). -/
inductive BMode where
  | thin
  | hybrid
  | full
deriving DecidableEq

/-- `ContentPrefer` (`storage/base.py`). -/
inductive Prefer where
  | compact
  | full
deriving DecidableEq

/-- The optional request context (`storage/base.py`): `user_id`, `space_id`,
`allowed_spaces`.  A non-list `allowed_spaces` is modelled as `none`. -/
structure Ctx where
  user_id : Option PyStr
  space_id : Option PyStr
  allowed_spaces : Option (List PyStr)
deriving DecidableEq

/-- `_derive_space_and_allowed` (`neo4j_storage.py` lines 956-967). -/
def deriveSpaceAndAllowed (ctx : Option Ctx) : PyStr × List PyStr :=
  let c := ctx.getD ⟨none, none, none⟩
  let userId := pyStrip (c.user_id.getD [])
  let spaceId := pyStrip (c.space_id.getD [])
  let space := if spaceId = [] then
      (if userId = [] then pys "global" else pys "personal:" ++ userId)
    else spaceId
  let allowed := match c.allowed_spaces with
    | some l => if l = [] then [space] else l
    | none => [space]
  (space, allowed)

/-! ## Scoring (`neo4j_storage.py` lines 34-43, 79-101) -/

/-- `KIND_WEIGHTS.get(kind, 0.7)` (`neo4j_storage.py` lines 34-40, 92-93). -/
noncomputable def kindWeight (kind : PyStr) : ℝ :=
  if kind = pys "decision" then 1.4
  else if kind = pys "pattern" then 1.3
  else if kind = pys "command" then 1.2
  else if kind = pys "answer" then 1.1
  else 0.7

/-- `_recency_weight(updated_at, half_life_days)` (`neo4j_storage.py` lines
79-87): `0.5 ** (max(age_seconds / 86400, 0) / half_life_days)`, with `0.5`
on parse failure. -/
noncomputable def recencyWeight (parseTs : PyStr → Option ℚ) (now : ℚ)
    (updatedAt : PyStr) (halfLifeDays : ℚ) : ℝ :=
  match parseTs updatedAt with
  | some t => (0.5 : ℝ) ^ (((max ((now - t) / 86400) 0 / halfLifeDays : ℚ) : ℝ))
  | none => 0.5

/-- The effective importance used by `_score_item`:
`item.get("importance", 50) or 50` — a missing/null importance *and* an
importance of `0` (falsy) both become `50`. -/
def effImportance (o : Option Int) : Int :=
  match o with
  | none => 50
  | some n => if n = 0 then 50 else n

/-- `_score_item(item, workspace_hint)` (`neo4j_storage.py` lines 90-101). -/
noncomputable def scoreItem (parseTs : PyStr → Option ℚ) (now : ℚ)
    (item : Item) (workspaceHint : PyStr) : ℝ :=
  let wKind := kindWeight item.kind
  let wRecency := recencyWeight parseTs now item.updated_at 14
  let importance := effImportance item.importance
  let itemWorkspace := item.workspace_hint
  let wWorkspace : ℝ :=
    if workspaceHint ≠ [] ∧ workspaceHint ≠ pys "global" ∧ itemWorkspace ≠ [] then
      (if itemWorkspace = workspaceHint then 1.2 else 0.8)
    else 1
  wKind * wRecency * (0.5 + (importance : ℝ) / 100) * wWorkspace

/-! ## Content selection and result formatting
(`neo4j_storage.py` lines 104-119, 702-746) -/

/-- `_select_content_for_mode(item, mode)` (`neo4j_storage.py` 104-119). -/
def selectContentForMode (item : Item) (mode : BMode) : PyStr :=
  let contentCompact := item.content_compact
  let contentFull := item.content
  match mode with
  | BMode.full => contentFull
  | BMode.hybrid =>
      if (item.kind = pys "command" ∨ item.kind = pys "pattern")
          ∧ contentFull.length ≤ 300 then contentFull
      else if contentCompact ≠ [] then contentCompact
      else autoCompact contentFull 200
  | BMode.thin =>
      if contentCompact ≠ [] then contentCompact
      else autoCompact contentFull 200

/-- A bootstrap response item (`_format_bootstrap_item` output shape). -/
structure BootstrapItem where
  id : Nat
  kind : PyStr
  title : PyStr
  content : PyStr
  tags : List PyStr
  updated_at : PyStr
  has_full : Bool
deriving DecidableEq

/-- `_format_bootstrap_item(raw, content_text)` (`neo4j_storage.py`
702-716): `has_full = bool(raw["content"] and raw["content"] != content_text)`. -/
def formatBootstrapItem (raw : Item) (contentText : PyStr) : BootstrapItem :=
  ⟨raw.nid, raw.kind, raw.title, contentText, raw.tags, raw.updated_at,
    !raw.content.isEmpty && raw.content != contentText⟩

/-- A search response item (`_format_search_results` output shape);
`pinned` is the 0/1 integer of the response. -/
structure SearchResult where
  id : Nat
  kind : PyStr
  title : PyStr
  content : PyStr
  tags : List PyStr
  pinned : Nat
  updated_at : PyStr
  has_full : Bool
deriving DecidableEq

/-- Loop body of `_format_search_results` (`neo4j_storage.py` 718-746):
note `has_full = bool(content_full)` — unlike `_format_bootstrap_item`, the
shaped content is *not* compared. -/
def formatSearchResult (prefer : Prefer) (snippetChars : Nat) (r : Item) :
    SearchResult :=
  let contentFull := r.content
  let contentCompact := r.content_compact
  let hasFull := !contentFull.isEmpty
  let content :=
    if prefer = Prefer.compact then
      (if contentCompact ≠ [] then contentCompact
       else autoCompact contentFull snippetChars)
    else contentFull
  ⟨r.nid, r.kind, r.title, content, r.tags, (if r.pinned then 1 else 0),
    r.updated_at, hasFull⟩

/-- `_format_search_results(records, prefer, snippet_chars)`. -/
def formatSearchResults (records : List Item) (prefer : Prefer)
    (snippetChars : Nat) : List SearchResult :=
  records.map (formatSearchResult prefer snippetChars)

/-! ## search_memory (`neo4j_storage.py` lines 421-554) -/

/-- The multi-tenant space filter (`WHERE m.space_id IN $spaces`), a no-op
in single-tenant mode. -/
def spaceOkPred (multiTenant : Bool) (allowed : List PyStr) (m : Item) : Bool :=
  !multiTenant || allowed.contains m.space_id

/-- The `WHERE` clause of the substring-fallback search: case-insensitive
`CONTAINS` on title or content, plus the space filter. -/
def searchFallbackPred (query : PyStr) (multiTenant : Bool)
    (allowed : List PyStr) (m : Item) : Bool :=
  (containsSub (pyLower m.title) (pyLower query)
    || containsSub (pyLower m.content) (pyLower query))
  && spaceOkPred multiTenant allowed m

/-- The space filter applied to scored full-text matches. -/
def primaryPairPred (multiTenant : Bool) (allowed : List PyStr)
    (ms : Item × ℚ) : Bool :=
  spaceOkPred multiTenant allowed ms.1

/-- The pinned-item fetch filter of `bootstrap`. -/
def pinnedPred (multiTenant : Bool) (allowed : List PyStr) (m : Item) : Bool :=
  m.pinned && spaceOkPred multiTenant allowed m

/-- The session fetch filter of `last_session`: workspace match plus the
space filter. -/
def sessionPred (wh : PyStr) (multiTenant : Bool) (allowed : List PyStr)
    (s : Session) : Bool :=
  s.workspace_hint == wh && (!multiTenant || allowed.contains s.space_id)

/-- `search_memory`, primary full-text path (lines 435-495).  The external
`db.index.fulltext.queryNodes('memory_fulltext', query)` call is the
abstract parameter `ft`, returning the store score for matching nodes and
`none` for non-matching ones; results are space-filtered in multi-tenant
mode, ordered by score descending, limited and formatted. -/
def searchMemoryPrimary (ft : Item → Option ℚ) (items : List Item)
    (query : PyStr) (lim : Int) (prefer : Prefer) (snippetChars : Nat)
    (multiTenant : Bool) (ctx : Option Ctx) : List SearchResult :=
  let q := pyStrip query
  if q = [] then []
  else
    let lim := max 1 (min lim 25)
    let allowed := (deriveSpaceAndAllowed ctx).2
    let scored := (items.filterMap fun m => (ft m).map (fun s => (m, s))).filter
      (primaryPairPred multiTenant allowed)
    let sorted := sortDescByQ (fun ms : Item × ℚ => ms.2) scored
    formatSearchResults ((sorted.take lim.toNat).map Prod.fst) prefer snippetChars

/-- `search_memory`, substring-fallback path (lines 429-434, 500-554):
case-insensitive `CONTAINS` on title or content, space-filtered in
multi-tenant mode, ordered by `updated_at` descending, limited, formatted. -/
def searchMemoryFallback (items : List Item) (query : PyStr) (lim : Int)
    (prefer : Prefer) (snippetChars : Nat) (multiTenant : Bool)
    (ctx : Option Ctx) : List SearchResult :=
  let q := pyStrip query
  if q = [] then []
  else
    let lim := max 1 (min lim 25)
    let allowed := (deriveSpaceAndAllowed ctx).2
    let matched := items.filter (searchFallbackPred q multiTenant allowed)
    formatSearchResults
      ((sortDescBy (fun m : Item => m.updated_at) matched).take lim.toNat)
      prefer snippetChars

/-! ## bootstrap (`neo4j_storage.py` lines 556-700) -/

/-- Cost of an item in the bootstrap budget:
`len(content_text) + len(title)` with the mode-shaped content
(`neo4j_storage.py` lines 676, 689). -/
def itemCost (mode : BMode) (i : Item) : Nat :=
  (selectContentForMode i mode).length + i.title.length

/-- Cost of an emitted bootstrap item. -/
def bootCost (b : BootstrapItem) : Nat := b.content.length + b.title.length

/-- The pinned loop of `bootstrap` (lines 673-681): every pinned item is
included and its cost is added to `used`, breaking once `max_items` items
have been appended.  Returns the formatted items and the accumulated
`used`. -/
def pinnedFill (mode : BMode) : Nat → List Item → List BootstrapItem × Nat
  | _, [] => ([], 0)
  | maxItems, i :: rest =>
      let ct := selectContentForMode i mode
      let cost := itemCost mode i
      let fm := formatBootstrapItem i ct
      if maxItems ≤ 1 then ([fm], cost)
      else
        let pr := pinnedFill mode (maxItems - 1) rest
        (fm :: pr.1, cost + pr.2)

/-- The recent loop of `bootstrap` (lines 683-695): stop when no slots
remain; skip (but keep scanning) any item for which
`max_tokens > 0 and used + cost > budget`. -/
def recentFill (mode : BMode) (maxTokens budget : Int) :
    List Item → Nat → Nat → List BootstrapItem
  | [], _, _ => []
  | i :: rest, slots, used =>
      if slots = 0 then []
      else
        let ct := selectContentForMode i mode
        let cost := itemCost mode i
        if maxTokens > 0 ∧ budget < (used : Int) + (cost : Int) then
          recentFill mode maxTokens budget rest slots used
        else
          formatBootstrapItem i ct ::
            recentFill mode maxTokens budget rest (slots - 1) (used + cost)

/-- The rank-and-budget phase of `bootstrap` (lines 666-695), taking the
fetched pinned items and the already-ranked recent candidates. -/
def bootstrapSelect (pinnedRaw recentCandidates : List Item) (mode : BMode)
    (maxTokens : Int) (maxItems : Nat) :
    List BootstrapItem × List BootstrapItem :=
  let pr := pinnedFill mode maxItems pinnedRaw
  let slots := maxItems - pr.1.length
  (pr.1, recentFill mode maxTokens (maxTokens * 4) recentCandidates slots pr.2)

/-- `last_session` output shape (`neo4j_storage.py` lines 936-954). -/
structure SessionOut where
  id : Nat
  created_at : PyStr
  workspace_hint : PyStr
  summary : PyStr
  decisions : List PyStr
  next_steps : List PyStr
deriving DecidableEq

/-- `last_session(workspace_hint, limit, context)` (lines 888-954):
sessions of the workspace, space-filtered in multi-tenant mode, newest
first, limit clamped to `[1, 10]`. -/
def lastSession (sessions : List Session) (workspaceHint : PyStr) (lim : Int)
    (multiTenant : Bool) (ctx : Option Ctx) : List SessionOut :=
  let wh := pyStrip (if workspaceHint = [] then pys "global" else workspaceHint)
  let lim := max 1 (min lim 10)
  let allowed := (deriveSpaceAndAllowed ctx).2
  let matched := sessions.filter (sessionPred wh multiTenant allowed)
  ((sortDescBy (fun s : Session => s.created_at) matched).take lim.toNat).map
    fun s => ⟨s.nid, s.created_at, s.workspace_hint, s.summary, s.decisions,
      s.next_steps⟩

/-- `bootstrap` result: the `last_session` field is `none` when the key is
omitted (no `include_sessions`), `some none` when present but null. -/
structure BootstrapResult where
  pinned : List BootstrapItem
  recent : List BootstrapItem
  last_session : Option (Option SessionOut)
deriving DecidableEq

/-- `bootstrap(...)` (lines 556-700).  The Python-side score sort of the
recent candidates is the abstract parameter `rank` (the source uses a
stable sort by `_score_item` descending — a function of the candidate list
alone once the clock is fixed). -/
def bootstrap (rank : List Item → List Item) (st : DBState)
    (limitPinned limitRecent : Int) (workspaceHint : PyStr) (mode : BMode)
    (maxTokens maxItems : Int) (includeSessions : Bool) (multiTenant : Bool)
    (ctx : Option Ctx) : BootstrapResult :=
  let lp := max 0 (min limitPinned 25)
  let lr := max 0 (min limitRecent 50)
  let mi := max 1 (min maxItems 50)
  let wh := pyStrip (if workspaceHint = [] then pys "global" else workspaceHint)
  let allowed := (deriveSpaceAndAllowed ctx).2
  let pinnedRaw := (sortDescBy (fun m : Item => m.updated_at)
    (st.items.filter (pinnedPred multiTenant allowed))).take lp.toNat
  let fetchLimit := max (lr * 3) (mi * 2)
  let recentRaw := (sortDescBy (fun m : Item => m.updated_at)
    (st.items.filter (spaceOkPred multiTenant allowed))).take fetchLimit.toNat
  let lastSess := if includeSessions then
      some (lastSession st.sessions wh 1 multiTenant ctx).head? else none
  let pinnedIds := pinnedRaw.map (fun p => p.nid)
  let recentCandidates := rank (recentRaw.filter fun r => !pinnedIds.contains r.nid)
  let sel := bootstrapSelect pinnedRaw recentCandidates mode maxTokens mi.toNat
  ⟨sel.1, sel.2, lastSess⟩

/-! ## write_memory (`neo4j_storage.py` lines 258-419, `server.py` 57-68) -/

/-- A JSON value, as far as `_ensure_list` inspects it. -/
inductive JVal where
  | jstr (s : PyStr)
  | jlist (xs : List JVal)
  | jother

/-- `_ensure_list(val)` (`server.py` lines 57-68); `parseJson` models
`json.loads`, `none` on `JSONDecodeError`. -/
def ensureList (parseJson : PyStr → Option JVal) : JVal → List JVal
  | JVal.jlist xs => xs
  | JVal.jstr s =>
      match parseJson s with
      | some (JVal.jlist xs) => xs
      | _ => []
  | JVal.jother => []

/-- `VALID_KINDS` (`neo4j_storage.py` line 31). -/
def validKinds : List PyStr :=
  [pys "answer", pys "decision", pys "pattern", pys "command", pys "note"]

/-- Kind normalisation of `write_memory` (lines 271-273):
`(kind or "").strip().lower()`, else `note`. -/
def normalizeKind (kind : PyStr) : PyStr :=
  let k := pyLower (pyStrip kind)
  if k ∈ validKinds then k else pys "note"

/-- Importance normalisation of `write_memory` (lines 286-288). -/
def clampImportance : Option Int → Int
  | none => 50
  | some i => max 0 (min 100 i)

/-- Source normalisation of `write_memory` (line 291). -/
def normalizeSource : Option PyStr → PyStr
  | none => pyStrip (pys "agent")
  | some s => if s = [] then pyStrip (pys "agent") else pyStrip s

/-- Workspace-hint normalisation of `write_memory` (line 294); the unset
(`None`) case is carried as the empty string. -/
def normalizeWorkspaceHint (w : Option PyStr) : PyStr :=
  pyStrip (w.getD [])

/-- Compact-content normalisation of `write_memory` (lines 279-283):
auto-generate from the (already stripped) content when absent, else strip
the caller's value. -/
def normalizeCompact (content : PyStr) : Option PyStr → PyStr
  | none => autoCompact (pyStrip content) 200
  | some s => pyStrip s

/-- The tag-reconcile loop of `write_memory` (lines 392-417) starting from
`acc` existing edges: each trimmed non-empty tag gets a `MERGE`d
`TAGGED_WITH` edge, which is a no-op when the edge already exists. -/
def reconcileAux (acc : List PyStr) : List PyStr → List PyStr
  | [] => acc
  | t :: ts =>
      let t' := pyStrip t
      if t' ≠ [] ∧ t' ∉ acc then reconcileAux (acc ++ [t']) ts
      else reconcileAux acc ts

/-- The `TAGGED_WITH` edges of an item after a write: all old edges are
deleted (lines 377-390), then the supplied tags are merged. -/
def reconcileTags (tags : List PyStr) : List PyStr := reconcileAux [] tags

/-- Update the first list element satisfying `p` (the `MERGE ... ON MATCH
SET` target). -/
def updateFirst {α : Type} (p : α → Bool) (f : α → α) : List α → List α
  | [] => []
  | x :: xs => if p x then f x :: xs else x :: updateFirst p f xs

/-- The space a write lands in: the derived space in multi-tenant mode;
single-tenant items carry no `space_id` property (empty string). -/
def writeSpace (multiTenant : Bool) (ctx : Option Ctx) : PyStr :=
  if multiTenant then (deriveSpaceAndAllowed ctx).1 else []

/-- The dedup key of `write_memory`'s `MERGE`: `(space_id, kind, title)` in
multi-tenant mode, `(kind, title)` otherwise. -/
def writeKey (multiTenant : Bool) (space k t : PyStr) (m : Item) : Bool :=
  (!multiTenant || m.space_id == space) && m.kind == k && m.title == t

/-- `write_memory` result shape. -/
structure WriteResult where
  ok : Bool
  action : PyStr
  id : Nat
deriving DecidableEq

/-- `write_memory(...)` (`neo4j_storage.py` lines 258-419): normalise,
upsert by the dedup key (keeping `created_at` on update), report
`"created"` iff the post-write `created_at` equals this write's `now`,
delete all `TAGGED_WITH` edges and merge one edge per trimmed non-empty
tag.  `freshId` is the store-assigned element id used on creation. -/
def writeMemory (st : DBState) (freshId : Nat) (now : PyStr)
    (kind title content : PyStr) (tags : List PyStr) (pinned : Bool)
    (contentCompact : Option PyStr) (workspaceHint : Option PyStr)
    (importance : Option Int) (source : Option PyStr)
    (multiTenant : Bool) (ctx : Option Ctx) : DBState × WriteResult :=
  let k := normalizeKind kind
  let t := pyStrip title
  let c := pyStrip content
  let cc := normalizeCompact content contentCompact
  let imp := clampImportance importance
  let src := normalizeSource source
  let wh := normalizeWorkspaceHint workspaceHint
  let space := writeSpace multiTenant ctx
  match st.items.find? (writeKey multiTenant space k t) with
  | some m =>
      let upd := fun m2 : Item =>
        (⟨m2.nid, m2.space_id, m2.kind, m2.title, c, cc, reconcileTags tags,
          pinned, m2.created_at, now, some imp, wh, src⟩ : Item)
      (⟨updateFirst (writeKey multiTenant space k t) upd st.items, st.sessions⟩,
       ⟨true, if m.created_at = now then pys "created" else pys "updated", m.nid⟩)
  | none =>
      let newItem : Item :=
        ⟨freshId, space, k, t, c, cc, reconcileTags tags, pinned, now, now,
          some imp, wh, src⟩
      (⟨st.items ++ [newItem], st.sessions⟩, ⟨true, pys "created", freshId⟩)

/-! ## read_memory (`neo4j_storage.py` lines 748-805) -/

/-- `read_memory` result shape. -/
structure ReadResult where
  id : Nat
  kind : PyStr
  title : PyStr
  content : PyStr
  content_compact : PyStr
  content_full : PyStr
  tags : List PyStr
  pinned : Nat
  updated_at : PyStr
  created_at : PyStr
  importance : Option Int
  workspace_hint : PyStr
  source : PyStr
deriving DecidableEq

/-- `read_memory(item_id, prefer, context)` (lines 748-805).  The Cypher
matches on `elementId(m) = $item_id` only — the `context` parameter is
accepted but never used, and there is no space filter. -/
def readMemory (st : DBState) (itemId : Nat) (prefer : Prefer)
    (ctx : Option Ctx) : Option ReadResult :=
  let _ := ctx
  match st.items.find? (fun m => m.nid == itemId) with
  | none => none
  | some r =>
      let contentFull := r.content
      let contentCompact := r.content_compact
      let content := if prefer = Prefer.compact then
          (if contentCompact ≠ [] then contentCompact
           else autoCompact contentFull 200)
        else contentFull
      some ⟨r.nid, r.kind, r.title, content, contentCompact, contentFull,
        r.tags, (if r.pinned then 1 else 0), r.updated_at, r.created_at,
        r.importance, r.workspace_hint, r.source⟩

/-! ## Concrete fixtures used by counterexamples and witnesses -/

/-- A 201-character fixpoint of `_auto_compact`: 200 `a`s followed by the
ellipsis character. -/
def c6FixStr : PyStr := List.replicate 200 'a' ++ ['…']

/-- An item with only the importance and the `updated_at` timestamp varying;
kind `note`, no workspace hint. -/
def c4Item (imp : Option Int) (upd : PyStr) : Item :=
  ⟨0, [], pys "note", [], [], [], [], false, [], upd, imp, [], []⟩

/-- A parse function mapping two timestamps to POSIX seconds 100 and 200. -/
def c4ParseFut : PyStr → Option ℚ :=
  fun s => if s = pys "u1" then some 100 else if s = pys "u2" then some 200 else none

/-- An item with non-empty content, used to exercise `search_memory` with
`prefer="full"`. -/
def c2Item : Item :=
  ⟨1, [], pys "note", pys "t", pys "abc", pys "ab", [], false, [], [],
    some 50, [], []⟩

/-- A pinned item of cost 10 (10-character content, empty title). -/
def c3Pinned : Item :=
  ⟨1, [], pys "note", [], pys "XXXXXXXXXX", [], [], true, [], [], some 50, [], []⟩

/-- A recent item of cost 4 (4-character content, empty title). -/
def c3Recent : Item :=
  ⟨2, [], pys "note", [], pys "YYYY", [], [], false, [], [], some 50, [], []⟩

/-- A request context claiming space `A` (as the server builds it from the
`X-Space-Id` header: `allowed_spaces = [space_id]`). -/
def ctxA : Ctx := ⟨none, some (pys "A"), some [pys "A"]⟩

/-- A request context claiming space `B`. -/
def ctxB : Ctx := ⟨none, some (pys "B"), some [pys "B"]⟩

/-- A fully-populated stored item for the `read_memory` witness. -/
def c9Item : Item :=
  ⟨1, [], pys "note", pys "t", pys "full body", pys "short", [pys "x"], true,
    pys "c", pys "u", some 60, pys "w", pys "agent"⟩

/-- A one-item store for the `read_memory` witness. -/
def c9St : DBState := ⟨[c9Item], []⟩

end Mnemosyne

namespace Mnemosyne

/-! ## Helper lemmas -/

/-- Helper: `pyRstrip` yields a prefix of its argument. -/
theorem pyRstrip_isPrefix (l : PyStr) : pyRstrip l <+: l := by
  have h : l.reverse.dropWhile isPySpace <:+ l.reverse := List.dropWhile_suffix _
  have h2 := List.reverse_prefix.mpr h
  simpa [pyRstrip] using h2

/-- Helper: the cut produced by `autoCompactCut` is a prefix of its input. -/
theorem autoCompactCut_isPrefix (t : PyStr) (m : Nat) : autoCompactCut t m <+: t := by
  unfold autoCompactCut
  cases compactSeps.find? (fun sep => (m / 2 : Int) < rfindSub t sep) with
  | none => exact List.prefix_refl t
  | some sep =>
      exact (pyRstrip_isPrefix _).trans (List.take_prefix _ t)

/-- Helper: the recency weight is strictly positive. -/
theorem recencyWeight_pos (parseTs : PyStr → Option ℚ) (now : ℚ) (u : PyStr)
    (hl : ℚ) : 0 < recencyWeight parseTs now u hl := by
  unfold recencyWeight
  cases parseTs u with
  | none => norm_num
  | some t => exact Real.rpow_pos_of_pos (by norm_num) _

/-- Helper: the recency weight is at most one. -/
theorem recencyWeight_le_one (parseTs : PyStr → Option ℚ) (now : ℚ) (u : PyStr)
    (hl : ℚ) (hhl : 0 ≤ hl) : recencyWeight parseTs now u hl ≤ 1 := by
  unfold recencyWeight
  cases parseTs u with
  | none => norm_num
  | some t =>
      apply Real.rpow_le_one (by norm_num) (by norm_num)
      have h1 : (0 : ℚ) ≤ max ((now - t) / 86400) 0 / hl :=
        div_nonneg (le_max_right _ _) hhl
      exact_mod_cast h1

/-- Helper: a timestamp not in the past is clamped to age zero, weight one. -/
theorem recencyWeight_future (parseTs : PyStr → Option ℚ) (now t : ℚ) (u : PyStr)
    (hl : ℚ) (hp : parseTs u = some t) (hfut : now ≤ t) :
    recencyWeight parseTs now u hl = 1 := by
  unfold recencyWeight
  simp only [hp]
  have hneg : (now - t) / 86400 ≤ 0 :=
    div_nonpos_of_nonpos_of_nonneg (by linarith) (by norm_num)
  rw [max_eq_right hneg]
  norm_num

/-- Helper: the fallback value on parse failure is `0.5`. -/
theorem recencyWeight_fallback (parseTs : PyStr → Option ℚ) (now : ℚ) (u : PyStr)
    (hl : ℚ) (hp : parseTs u = none) : recencyWeight parseTs now u hl = 0.5 := by
  unfold recencyWeight
  simp only [hp]

/-- Helper: every kind weight is strictly positive. -/
theorem kindWeight_pos (k : PyStr) : 0 < kindWeight k := by
  unfold kindWeight
  split_ifs <;> norm_num

/-- Helper: `scoreItem` written as an explicit product. -/
theorem scoreItem_def (parseTs : PyStr → Option ℚ) (now : ℚ) (item : Item)
    (hint : PyStr) :
    scoreItem parseTs now item hint =
      kindWeight item.kind * recencyWeight parseTs now item.updated_at 14 *
        (0.5 + (effImportance item.importance : ℝ) / 100) *
        (if hint ≠ [] ∧ hint ≠ pys "global" ∧ item.workspace_hint ≠ [] then
          (if item.workspace_hint = hint then 1.2 else 0.8) else 1) := rfl

/-- Helper: the effective importance is nonnegative when any stored value is. -/
theorem effImportance_nonneg (o : Option Int) (h : ∀ i : Int, o = some i → 0 ≤ i) :
    0 ≤ effImportance o := by
  unfold effImportance
  cases o with
  | none => norm_num
  | some n =>
      by_cases hn : n = 0
      · simp [hn]
      · simp only [if_neg hn]
        exact h n rfl

/-- Helper: the workspace factor is strictly positive. -/
theorem workspaceFactor_pos (hint ws : PyStr) :
    (0 : ℝ) < (if hint ≠ [] ∧ hint ≠ pys "global" ∧ ws ≠ [] then
      (if ws = hint then 1.2 else 0.8) else 1) := by
  split_ifs <;> norm_num

/-! ## Claim C6 -/

/-- Claim C6, counterexample.  The stated equivalence
`compact(content) = content ↔ len(content.trim()) ≤ 200` fails in both
directions: `_auto_compact` returns the *stripped* content, so
`compact(" a ") = "a" ≠ " a "` although the trimmed length is `1 ≤ 200`;
and the 201-character string `"a"*200 + "…"` is returned unchanged although
its trimmed length is `201 > 200`. -/
theorem autoCompact_c6_counterexample :
    (autoCompact (pys " a ") 200 ≠ pys " a " ∧ (pyStrip (pys " a ")).length ≤ 200)
    ∧ (autoCompact c6FixStr 200 = c6FixStr ∧ 200 < (pyStrip c6FixStr).length) := by
  constructor
  · constructor
    · decide
    · decide
  · constructor
    · decide
    · decide

/-- Claim C6 (amended): `compact(content)` equals the *trimmed* content
when the trimmed content has length ≤ 200; otherwise the result is a prefix
of the first 200 characters of the trimmed content followed by the
single-character ellipsis `…` (the prefix is obtained by cutting at the last
occurrence of `"\n"`, `". "`, `"! "`, `"? "` in that priority when found
strictly past the midpoint, then stripping trailing whitespace); and the
function is deterministic. -/
theorem autoCompact_c6_amended (content : PyStr) :
    ((pyStrip content).length ≤ 200 → autoCompact content 200 = pyStrip content)
    ∧ (200 < (pyStrip content).length →
        ∃ pre : PyStr, autoCompact content 200 = pre ++ ['…'] ∧
          pre <+: (pyStrip content).take 200)
    ∧ (∀ c2 : PyStr, content = c2 → autoCompact content 200 = autoCompact c2 200) := by
  refine ⟨fun h => ?_, fun h => ?_, fun c2 h => by rw [h]⟩
  · simp only [autoCompact]
    rw [if_pos h]
  · refine ⟨autoCompactCut ((pyStrip content).take 200) 200, ?_, autoCompactCut_isPrefix _ _⟩
    simp only [autoCompact]
    rw [if_neg (by omega)]

/-- Claim C6 amended, witness: both branches exercised on concrete inputs. -/
theorem autoCompact_c6_amended_witness :
    autoCompact (pys " hi ") 200 = pyStrip (pys " hi ")
    ∧ ∃ pre : PyStr, autoCompact (List.replicate 300 'b') 200 = pre ++ ['…'] ∧
        pre <+: (pyStrip (List.replicate 300 'b')).take 200 := by
  constructor
  · exact (autoCompact_c6_amended (pys " hi ")).1 (by decide)
  · exact (autoCompact_c6_amended (List.replicate 300 'b')).2.1 (by decide)

/-! ## Claim C10 -/

/-- Claim C10: `_recency_weight` is a total function with value in `(0, 1]`;
the age is clamped at zero so a future timestamp gives weight exactly `1`
(not above `1`), and an unparseable timestamp gives `0.5` instead of an
error.  (The `TypeError` branch for non-string input is the same fallback,
modelled by `parseTs` returning `none`; floats are modelled as reals.) -/
theorem recencyWeight_c10 (parseTs : PyStr → Option ℚ) (now : ℚ) (u : PyStr) :
    (0 < recencyWeight parseTs now u 14 ∧ recencyWeight parseTs now u 14 ≤ 1)
    ∧ (∀ t : ℚ, parseTs u = some t → now ≤ t → recencyWeight parseTs now u 14 = 1)
    ∧ (parseTs u = none → recencyWeight parseTs now u 14 = 0.5) :=
  ⟨⟨recencyWeight_pos parseTs now u 14, recencyWeight_le_one parseTs now u 14 (by norm_num)⟩,
   fun t hp hfut => recencyWeight_future parseTs now t u 14 hp hfut,
   fun hp => recencyWeight_fallback parseTs now u 14 hp⟩

/-- Claim C10, witness: the fallback and the future-timestamp clamp on
concrete inputs. -/
theorem recencyWeight_c10_witness :
    recencyWeight (fun _ => none) 0 (pys "not a date") 14 = 0.5
    ∧ recencyWeight (fun _ => some 5) 0 (pys "future") 14 = 1 :=
  ⟨(recencyWeight_c10 (fun _ => none) 0 (pys "not a date")).2.2 rfl,
   (recencyWeight_c10 (fun _ => some 5) 0 (pys "future")).2.1 5 rfl (by norm_num)⟩

/-! ## Claim C4 -/

/-- Claim C4 (amended): holding all else equal, (a) a larger importance gives
a strictly larger score provided both importances are ≥ 1 — the code's
`item.get("importance", 50) or 50` coerces an importance of `0` to `50`, so
monotonicity fails at `0`; (b) a more recent `updated_at` gives a strictly
larger score provided the more recent timestamp is not in the future — ages
are clamped at zero, so two future timestamps tie; (c) an item whose
`workspace_hint` matches the query's scores at least as high as one whose
differs (for nonnegative stored importance). -/
theorem scoreItem_c4_amended (parseTs : PyStr → Option ℚ) (now : ℚ)
    (a b : Item) (hint : PyStr) :
    (a.kind = b.kind → a.updated_at = b.updated_at → a.workspace_hint = b.workspace_hint →
      ∀ i j : Int, a.importance = some i → b.importance = some j → 1 ≤ i → i < j →
        scoreItem parseTs now a hint < scoreItem parseTs now b hint)
    ∧ (a.kind = b.kind → a.importance = b.importance → a.workspace_hint = b.workspace_hint →
      (∀ i : Int, a.importance = some i → 0 ≤ i) →
      ∀ t u : ℚ, parseTs a.updated_at = some t → parseTs b.updated_at = some u →
        t < u → u ≤ now →
        scoreItem parseTs now a hint < scoreItem parseTs now b hint)
    ∧ (a.kind = b.kind → a.updated_at = b.updated_at → a.importance = b.importance →
      (∀ i : Int, a.importance = some i → 0 ≤ i) →
      a.workspace_hint = hint → b.workspace_hint ≠ hint →
        scoreItem parseTs now b hint ≤ scoreItem parseTs now a hint) := by
  refine ⟨?_, ?_, ?_⟩
  · intro hk hu hw i j hi hj hi1 hij
    rw [scoreItem_def, scoreItem_def, ← hk, ← hu, ← hw, hi, hj]
    have hK : 0 < kindWeight a.kind := kindWeight_pos _
    have hR : 0 < recencyWeight parseTs now a.updated_at 14 := recencyWeight_pos _ _ _ _
    have hW := workspaceFactor_pos hint a.workspace_hint
    have hieq : effImportance (some i) = i := by
      simp only [effImportance]; rw [if_neg (by omega)]
    have hjeq : effImportance (some j) = j := by
      simp only [effImportance]; rw [if_neg (by omega)]
    rw [hieq, hjeq]
    have hf : (0.5 + (i : ℝ) / 100) < 0.5 + (j : ℝ) / 100 := by
      have : (i : ℝ) < (j : ℝ) := by exact_mod_cast hij
      linarith
    exact mul_lt_mul_of_pos_right
      (mul_lt_mul_of_pos_left hf (mul_pos hK hR)) hW
  · intro hk hi hw himp t u hpt hpu htu hun
    rw [scoreItem_def, scoreItem_def, ← hk, ← hi, ← hw]
    have hK : 0 < kindWeight a.kind := kindWeight_pos _
    have hW := workspaceFactor_pos hint a.workspace_hint
    have hf : (0 : ℝ) < 0.5 + (effImportance a.importance : ℝ) / 100 := by
      have h0 : (0 : ℝ) ≤ (effImportance a.importance : ℝ) := by
        exact_mod_cast effImportance_nonneg a.importance himp
      linarith
    have hRlt : recencyWeight parseTs now a.updated_at 14 <
        recencyWeight parseTs now b.updated_at 14 := by
      unfold recencyWeight
      simp only [hpt, hpu]
      apply Real.rpow_lt_rpow_of_exponent_gt (by norm_num) (by norm_num)
      have h1 : (0 : ℚ) ≤ now - u := by linarith
      have h2 : now - u < now - t := by linarith
      have hmu : max ((now - u) / 86400) 0 = (now - u) / 86400 :=
        max_eq_left (div_nonneg h1 (by norm_num))
      have hmt : max ((now - t) / 86400) 0 = (now - t) / 86400 :=
        max_eq_left (div_nonneg (by linarith) (by norm_num))
      have : max ((now - u) / 86400) 0 / 14 < max ((now - t) / 86400) 0 / 14 := by
        rw [hmu, hmt]
        linarith
      exact_mod_cast this
    exact mul_lt_mul_of_pos_right
      (mul_lt_mul_of_pos_right (mul_lt_mul_of_pos_left hRlt hK) hf) hW
  · intro hk hu hi himp hwa hwb
    subst hwa
    rw [scoreItem_def, scoreItem_def, ← hk, ← hu, ← hi]
    have hK : 0 < kindWeight a.kind := kindWeight_pos _
    have hR : 0 < recencyWeight parseTs now a.updated_at 14 := recencyWeight_pos _ _ _ _
    have hf : (0 : ℝ) ≤ 0.5 + (effImportance a.importance : ℝ) / 100 := by
      have h0 : (0 : ℝ) ≤ (effImportance a.importance : ℝ) := by
        exact_mod_cast effImportance_nonneg a.importance himp
      linarith
    have hWa : (if a.workspace_hint ≠ [] ∧ a.workspace_hint ≠ pys "global" ∧
          b.workspace_hint ≠ [] then
        (if b.workspace_hint = a.workspace_hint then 1.2 else 0.8) else 1 : ℝ) ≤
        (if a.workspace_hint ≠ [] ∧ a.workspace_hint ≠ pys "global" ∧
          a.workspace_hint ≠ [] then
        (if a.workspace_hint = a.workspace_hint then 1.2 else 0.8) else 1) := by
      by_cases hg : a.workspace_hint ≠ [] ∧ a.workspace_hint ≠ pys "global"
      · have ha : (if a.workspace_hint ≠ [] ∧ a.workspace_hint ≠ pys "global" ∧
              a.workspace_hint ≠ [] then
            (if a.workspace_hint = a.workspace_hint then (1.2 : ℝ) else 0.8) else 1)
            = 1.2 := by
          rw [if_pos ⟨hg.1, hg.2, hg.1⟩, if_pos rfl]
        rw [ha]
        by_cases hb : b.workspace_hint = []
        · rw [if_neg (fun h => h.2.2 hb)]; norm_num
        · rw [if_pos ⟨hg.1, hg.2, hb⟩, if_neg hwb]; norm_num
      · have hna : ¬(a.workspace_hint ≠ [] ∧ a.workspace_hint ≠ pys "global" ∧
            a.workspace_hint ≠ []) := by tauto
        have hnb : ¬(a.workspace_hint ≠ [] ∧ a.workspace_hint ≠ pys "global" ∧
            b.workspace_hint ≠ []) := by tauto
        rw [if_neg hna, if_neg hnb]
    exact mul_le_mul_of_nonneg_left hWa
      (mul_nonneg (mul_nonneg hK.le hR.le) hf)

/-- Claim C4, counterexample.  (a) Raising the importance from `0` to `10`
*lowers* the score, because `item.get("importance", 50) or 50` treats the
falsy importance `0` as `50`; (b) with the wall clock at `0`, two items
whose timestamps parse to `100` and `200` (both in the future) score
*equally*, because the age is clamped at zero — so a more recent
`updated_at` does not always yield a higher score. -/
theorem scoreItem_c4_counterexample :
    scoreItem (fun _ => none) 0 (c4Item (some 10) []) (pys "global") <
      scoreItem (fun _ => none) 0 (c4Item (some 0) []) (pys "global")
    ∧ scoreItem c4ParseFut 0 (c4Item (some 50) (pys "u1")) (pys "global") =
      scoreItem c4ParseFut 0 (c4Item (some 50) (pys "u2")) (pys "global") := by
  have hk : kindWeight (pys "note") = 0.7 := by
    unfold kindWeight
    rw [if_neg (by decide), if_neg (by decide), if_neg (by decide), if_neg (by decide)]
  constructor
  · rw [scoreItem_def, scoreItem_def]
    simp only [c4Item]
    rw [hk, recencyWeight_fallback _ _ _ _ rfl, if_neg (fun h => h.2.1 rfl)]
    simp only [effImportance]
    norm_num
  · rw [scoreItem_def, scoreItem_def]
    simp only [c4Item]
    rw [recencyWeight_future c4ParseFut 0 100 (pys "u1") 14 (by decide) (by norm_num),
        recencyWeight_future c4ParseFut 0 200 (pys "u2") 14 (by decide) (by norm_num)]

/-! ## Bootstrap loop lemmas -/

/-- Helper: the pinned loop emits exactly the first `max 1 maxItems` pinned
items (formatted), whatever the budget. -/
theorem pinnedFill_fst (mode : BMode) (l : List Item) : ∀ mi : Nat,
    (pinnedFill mode mi l).1 =
      (l.take (max 1 mi)).map
        (fun i => formatBootstrapItem i (selectContentForMode i mode)) := by
  induction l with
  | nil => intro mi; simp [pinnedFill]
  | cons i rest ih =>
      intro mi
      by_cases h : mi ≤ 1
      · have h1 : max 1 mi = 1 := by omega
        rw [h1]
        simp [pinnedFill, if_pos h, List.take]
      · obtain ⟨k, rfl⟩ : ∃ k, mi = k + 1 := ⟨mi - 1, by omega⟩
        have h1 : max 1 (k + 1) = k + 1 := by omega
        have h2 : max 1 k = k := by omega
        rw [h1, List.take_succ_cons, List.map_cons]
        simp only [pinnedFill, if_neg h]
        rw [show k + 1 - 1 = k from rfl, ih k, h2]

/-- Helper: the accumulated `used` of the pinned loop is the cost sum of
the emitted pinned items. -/
theorem pinnedFill_snd (mode : BMode) (l : List Item) : ∀ mi : Nat,
    (pinnedFill mode mi l).2 = ((l.take (max 1 mi)).map (itemCost mode)).sum := by
  induction l with
  | nil => intro mi; simp [pinnedFill]
  | cons i rest ih =>
      intro mi
      by_cases h : mi ≤ 1
      · have h1 : max 1 mi = 1 := by omega
        rw [h1]
        simp [pinnedFill, if_pos h, List.take]
      · obtain ⟨k, rfl⟩ : ∃ k, mi = k + 1 := ⟨mi - 1, by omega⟩
        have h1 : max 1 (k + 1) = k + 1 := by omega
        have h2 : max 1 k = k := by omega
        rw [h1, List.take_succ_cons, List.map_cons, List.sum_cons]
        simp only [pinnedFill, if_neg h]
        rw [show k + 1 - 1 = k from rfl, ih k, h2]

/-- Helper: the recent loop never emits more items than it has slots. -/
theorem recentFill_length (mode : BMode) (mt bud : Int) (l : List Item) :
    ∀ slots used, (recentFill mode mt bud l slots used).length ≤ slots := by
  induction l with
  | nil => intro slots used; simp [recentFill]
  | cons i rest ih =>
      intro slots used
      by_cases hs : slots = 0
      · simp [recentFill, hs]
      · simp only [recentFill, if_neg hs]
        by_cases hc : mt > 0 ∧ bud < (used : Int) + (itemCost mode i : Int)
        · rw [if_pos hc]; exact ih slots used
        · rw [if_neg hc]
          have := ih (slots - 1) (used + itemCost mode i)
          simp only [List.length_cons]
          omega

/-- Helper: the total cost admitted by the recent loop stays within the
budget, counting the incoming `used`. -/
theorem recentFill_budget (mode : BMode) (mt bud : Int) (hmt : 0 < mt)
    (l : List Item) : ∀ slots used,
    (((recentFill mode mt bud l slots used).map bootCost).sum : Int) + used ≤
      max bud (used : Int) := by
  induction l with
  | nil =>
      intro slots used
      simp [recentFill]
  | cons i rest ih =>
      intro slots used
      by_cases hs : slots = 0
      · simp [recentFill, hs]
      · simp only [recentFill, if_neg hs]
        by_cases hc : mt > 0 ∧ bud < (used : Int) + (itemCost mode i : Int)
        · rw [if_pos hc]; exact ih slots used
        · rw [if_neg hc]
          push_neg at hc
          have hfit : (used : Int) + (itemCost mode i : Int) ≤ bud := hc hmt
          have ihh := ih (slots - 1) (used + itemCost mode i)
          have hmax : max bud ((used + itemCost mode i : Nat) : Int) = bud := by
            rw [max_eq_left]
            push_cast
            linarith
          rw [hmax] at ihh
          have hbc : bootCost (formatBootstrapItem i (selectContentForMode i mode))
              = itemCost mode i := rfl
          simp only [List.map_cons, List.sum_cons, hbc]
          push_cast at ihh ⊢
          have hb : (bud : Int) ≤ max bud (used : Int) := le_max_left _ _
          linarith

/-- Helper: a skipped item leaves the rest of the selection unchanged (the
loop continues instead of stopping). -/
theorem recentFill_skip (mode : BMode) (mt bud : Int) (i : Item)
    (rest : List Item) (slots used : Nat) (hs : slots ≠ 0)
    (hc : mt > 0 ∧ bud < (used : Int) + (itemCost mode i : Int)) :
    recentFill mode mt bud (i :: rest) slots used =
      recentFill mode mt bud rest slots used := by
  simp only [recentFill, if_neg hs, if_pos hc]

/-- Helper: the select phase emits at most `maxItems` items in total, with
recent items confined to the slots left over by pinned ones. -/
theorem bootstrapSelect_card (p c : List Item) (mode : BMode) (mt : Int)
    (miN : Nat) (hmi : 1 ≤ miN) :
    (bootstrapSelect p c mode mt miN).1.length +
      (bootstrapSelect p c mode mt miN).2.length ≤ miN
    ∧ (bootstrapSelect p c mode mt miN).2.length ≤
      miN - (bootstrapSelect p c mode mt miN).1.length := by
  have hp := pinnedFill_fst mode p miN
  have hlen : (pinnedFill mode miN p).1.length ≤ miN := by
    rw [hp]
    simp only [List.length_map, List.length_take]
    omega
  have hr := recentFill_length mode mt (mt * 4) c
    (miN - (pinnedFill mode miN p).1.length) (pinnedFill mode miN p).2
  constructor
  · simp only [bootstrapSelect]
    omega
  · simp only [bootstrapSelect]
    exact hr

/-! ## Claim C7 -/

/-- Claim C7: `bootstrap` clamps `limit_pinned` into `[0,25]`,
`limit_recent` into `[0,50]` and `max_items` into `[1,50]`, and the result
satisfies `|pinned| + |recent| ≤ max_items` with pinned items filling slots
before recent ones (recent items only get the slots pinned items left
over). -/
theorem bootstrap_c7 (rank : List Item → List Item) (st : DBState)
    (lp lr : Int) (wh : PyStr) (mode : BMode) (mt mi : Int)
    (inc mtf : Bool) (ctx : Option Ctx) :
    (0 ≤ max 0 (min lp 25) ∧ max 0 (min lp 25) ≤ 25)
    ∧ (0 ≤ max 0 (min lr 50) ∧ max 0 (min lr 50) ≤ 50)
    ∧ (1 ≤ max 1 (min mi 50) ∧ max 1 (min mi 50) ≤ 50)
    ∧ (bootstrap rank st lp lr wh mode mt mi inc mtf ctx).pinned.length +
        (bootstrap rank st lp lr wh mode mt mi inc mtf ctx).recent.length ≤
        (max 1 (min mi 50)).toNat
    ∧ (bootstrap rank st lp lr wh mode mt mi inc mtf ctx).recent.length ≤
        (max 1 (min mi 50)).toNat -
        (bootstrap rank st lp lr wh mode mt mi inc mtf ctx).pinned.length := by
  have hmi : 1 ≤ (max 1 (min mi 50)).toNat := by
    have h1 : (1 : Int) ≤ max 1 (min mi 50) := le_max_left _ _
    omega
  refine ⟨⟨le_max_left _ _, max_le (by norm_num) (min_le_right _ _)⟩,
          ⟨le_max_left _ _, max_le (by norm_num) (min_le_right _ _)⟩,
          ⟨le_max_left _ _, max_le (by norm_num) (min_le_right _ _)⟩, ?_, ?_⟩
  · simp only [bootstrap]
    exact (bootstrapSelect_card _ _ _ _ _ hmi).1
  · simp only [bootstrap]
    exact (bootstrapSelect_card _ _ _ _ _ hmi).2

/-! ## Claim C3 -/

/-- Claim C3, counterexample.  With `max_tokens = 3` (budget `B = 12`), a
pinned item of cost 10 and a single ranked recent item of cost 4: the full
`B` is *not* available to recent items — the pinned cost is added to `used`
(line 679), so the recent item (cost 4 ≤ 12, slots free) is skipped and the
emitted recent list is empty. -/
theorem bootstrap_c3_counterexample :
    (bootstrapSelect [c3Pinned] [c3Recent] BMode.full 3 10).2 = []
    ∧ (itemCost BMode.full c3Recent : Int) ≤ 3 * 4
    ∧ (bootstrapSelect [c3Pinned] [c3Recent] BMode.full 3 10).1.length = 1
    ∧ 10 - (bootstrapSelect [c3Pinned] [c3Recent] BMode.full 3 10).1.length ≠ 0 := by
  refine ⟨by decide, by decide, by decide, by decide⟩

/-- Claim C3 (amended): with `max_tokens > 0` and budget `B = max_tokens ×
4`, pinned items are always emitted (up to `max_items`) regardless of the
budget, but their costs *are counted against `B`* — only the remainder is
available to recent items; a ranked recent item whose cost would push the
running total past `B` is skipped while later smaller items may still be
admitted; and the total cost of emitted recent items never exceeds `B`
(indeed recent + pinned cost stays within `B` whenever the pinned cost
alone does). -/
theorem bootstrap_c3_amended (pinnedRaw candidates : List Item) (mode : BMode)
    (maxTokens : Int) (maxItems : Nat) (hmt : 0 < maxTokens) (hmi : 1 ≤ maxItems) :
    (bootstrapSelect pinnedRaw candidates mode maxTokens maxItems).1 =
      (pinnedRaw.take maxItems).map
        (fun i => formatBootstrapItem i (selectContentForMode i mode))
    ∧ (((bootstrapSelect pinnedRaw candidates mode maxTokens maxItems).2.map
          bootCost).sum : Int)
        + (((pinnedRaw.take maxItems).map (itemCost mode)).sum : Int)
        ≤ max (maxTokens * 4) (((pinnedRaw.take maxItems).map (itemCost mode)).sum : Int)
    ∧ (((bootstrapSelect pinnedRaw candidates mode maxTokens maxItems).2.map
          bootCost).sum : Int) ≤ maxTokens * 4
    ∧ (∀ (i : Item) (rest : List Item) (slots used : Nat), slots ≠ 0 →
        maxTokens * 4 < (used : Int) + (itemCost mode i : Int) →
        recentFill mode maxTokens (maxTokens * 4) (i :: rest) slots used =
          recentFill mode maxTokens (maxTokens * 4) rest slots used) := by
  have hmax : max 1 maxItems = maxItems := by omega
  have hpf := pinnedFill_fst mode pinnedRaw maxItems
  have hps := pinnedFill_snd mode pinnedRaw maxItems
  rw [hmax] at hpf hps
  have hsel1 : (bootstrapSelect pinnedRaw candidates mode maxTokens maxItems).1 =
      (pinnedRaw.take maxItems).map
        (fun i => formatBootstrapItem i (selectContentForMode i mode)) := by
    simp only [bootstrapSelect]
    exact hpf
  have hsel2 : (bootstrapSelect pinnedRaw candidates mode maxTokens maxItems).2 =
      recentFill mode maxTokens (maxTokens * 4) candidates
        (maxItems - (pinnedFill mode maxItems pinnedRaw).1.length)
        (pinnedFill mode maxItems pinnedRaw).2 := by
    simp only [bootstrapSelect]
  have hbud := recentFill_budget mode maxTokens (maxTokens * 4) hmt candidates
    (maxItems - (pinnedFill mode maxItems pinnedRaw).1.length)
    (pinnedFill mode maxItems pinnedRaw).2
  rw [hps] at hbud
  refine ⟨hsel1, ?_, ?_, ?_⟩
  · rw [hsel2, hps]
    exact hbud
  · rw [hsel2, hps]
    have hP : (0 : Int) ≤ (((pinnedRaw.take maxItems).map (itemCost mode)).sum : Int) :=
      Int.ofNat_nonneg _
    rcases le_total (((pinnedRaw.take maxItems).map (itemCost mode)).sum : Int)
        (maxTokens * 4) with hle | hle
    · rw [max_eq_left hle] at hbud
      linarith
    · rw [max_eq_right hle] at hbud
      linarith
  · intro i rest slots used hs hover
    exact recentFill_skip mode maxTokens (maxTokens * 4) i rest slots used hs
      ⟨hmt, hover⟩

/-- Claim C3 amended, witness: the pinned-inclusion conjunct at the
counterexample's concrete input. -/
theorem bootstrap_c3_amended_witness :
    (bootstrapSelect [c3Pinned] [c3Recent] BMode.full 3 10).1 =
      ([c3Pinned].take 10).map
        (fun i => formatBootstrapItem i (selectContentForMode i BMode.full)) :=
  (bootstrap_c3_amended [c3Pinned] [c3Recent] BMode.full 3 10
    (by norm_num) (by norm_num)).1

/-! ## Claim C2 -/

/-- Claim C2, counterexample: `search_memory` with `prefer="full"` on an
item with non-empty stored content emits `has_full = true` even though the
returned content *is* the stored content — no strict reduction happened.
`_format_search_results` sets `has_full = bool(content_full)` without
comparing the shaped content. -/
theorem hasFull_c2_counterexample :
    searchMemoryFallback [c2Item] (pys "abc") 8 Prefer.full 400 false none =
      [formatSearchResult Prefer.full 400 c2Item]
    ∧ (formatSearchResult Prefer.full 400 c2Item).has_full = true
    ∧ (formatSearchResult Prefer.full 400 c2Item).content = c2Item.content
    ∧ c2Item.content ≠ [] := by
  refine ⟨by decide, by decide, by decide, by decide⟩

/-- Claim C2 (amended): for items emitted by `bootstrap`
(`_format_bootstrap_item`), `has_full` is true iff the stored content is
non-empty *and* differs from the returned content, as claimed; but for
items emitted by `search_memory` (`_format_search_results`), `has_full` is
true iff the stored content is non-empty, for every value of `prefer` —
the comparison with the shaped content is not performed there.  Every item
emitted by either search path is `formatSearchResult` of some record. -/
theorem hasFull_c2_amended (raw : Item) (ct : PyStr) (prefer : Prefer) (sc : Nat) :
    ((formatBootstrapItem raw ct).has_full = true ↔
      (raw.content ≠ [] ∧ raw.content ≠ ct))
    ∧ ((formatSearchResult prefer sc raw).has_full = true ↔ raw.content ≠ [])
    ∧ (∀ ft items q lim mt ctx out,
        out ∈ searchMemoryPrimary ft items q lim prefer sc mt ctx →
        ∃ r : Item, out = formatSearchResult prefer sc r)
    ∧ (∀ items q lim mt ctx out,
        out ∈ searchMemoryFallback items q lim prefer sc mt ctx →
        ∃ r : Item, out = formatSearchResult prefer sc r) := by
  refine ⟨?_, ?_, ?_, ?_⟩
  · simp [formatBootstrapItem, Bool.and_eq_true, List.isEmpty_iff, bne_iff_ne]
  · simp [formatSearchResult, List.isEmpty_iff]
  · intro ft items q lim mt ctx out hmem
    by_cases hq : pyStrip q = []
    · simp [searchMemoryPrimary, hq] at hmem
    · simp only [searchMemoryPrimary, hq, if_neg, ite_false, formatSearchResults] at hmem
      rw [List.mem_map] at hmem
      obtain ⟨r, _, hr⟩ := hmem
      exact ⟨r, hr.symm⟩
  · intro items q lim mt ctx out hmem
    by_cases hq : pyStrip q = []
    · simp [searchMemoryFallback, hq] at hmem
    · simp only [searchMemoryFallback, hq, if_neg, ite_false, formatSearchResults] at hmem
      rw [List.mem_map] at hmem
      obtain ⟨r, _, hr⟩ := hmem
      exact ⟨r, hr.symm⟩

/-- Claim C2 amended, witness: the emission conjunct applied to the
concrete search result of a one-item store. -/
theorem hasFull_c2_amended_witness :
    ∃ r : Item, formatSearchResult Prefer.full 400 c2Item =
      formatSearchResult Prefer.full 400 r :=
  (hasFull_c2_amended c2Item [] Prefer.full 400).2.2.2 [c2Item] (pys "abc") 8
    false none (formatSearchResult Prefer.full 400 c2Item) (by decide)

/-! ## Write-path lemmas -/

/-- Helper: `find?` after `updateFirst`, when the update preserves the
predicate. -/
theorem find?_updateFirst (p : Item → Bool) (f : Item → Item)
    (hf : ∀ x, p x = true → p (f x) = true) :
    ∀ l : List Item, (updateFirst p f l).find? p = (l.find? p).map f := by
  intro l
  induction l with
  | nil => rfl
  | cons x xs ih =>
      by_cases hx : p x = true
      · simp [updateFirst, hx, hf x hx]
      · have hx' : p x = false := by
          cases hpx : p x
          · rfl
          · exact absurd hpx hx
        simp [updateFirst, hx', ih]

/-- Helper: `find?` over an append whose first part has no match. -/
theorem find?_append_of_none {α : Type} (p : α → Bool) (l1 l2 : List α)
    (h : l1.find? p = none) : (l1 ++ l2).find? p = l2.find? p := by
  induction l1 with
  | nil => rfl
  | cons x xs ih =>
      cases hx : p x
      · rw [List.find?_cons_of_neg _ (by simp [hx])] at h
        rw [List.cons_append, List.find?_cons_of_neg _ (by simp [hx])]
        exact ih h
      · rw [List.find?_cons_of_pos _ hx] at h
        exact absurd h (by simp)

/-- Helper: after a `write_memory`, looking the item up by the write's
dedup key finds exactly the normalised written fields — the tag edges are
the reconciled supplied tags, the kind/title/content/importance are the
normalised inputs. -/
theorem writeMemory_found (st : DBState) (freshId : Nat)
    (now kind title content : PyStr) (tags : List PyStr) (pinned : Bool)
    (cc wh : Option PyStr) (imp : Option Int) (src : Option PyStr)
    (mt : Bool) (ctx : Option Ctx) :
    ∃ w : Item,
      ((writeMemory st freshId now kind title content tags pinned cc wh imp src
          mt ctx).1.items.find?
        (writeKey mt (writeSpace mt ctx)
          (normalizeKind kind) (pyStrip title))) = some w
      ∧ w.kind = normalizeKind kind
      ∧ w.title = pyStrip title
      ∧ w.content = pyStrip content
      ∧ w.content_compact = normalizeCompact content cc
      ∧ w.tags = reconcileTags tags
      ∧ w.pinned = pinned
      ∧ w.updated_at = now
      ∧ w.importance = some (clampImportance imp)
      ∧ w.workspace_hint = normalizeWorkspaceHint wh
      ∧ w.source = normalizeSource src := by
  cases h : st.items.find?
      (writeKey mt (writeSpace mt ctx)
        (normalizeKind kind) (pyStrip title)) with
  | none =>
      simp only [writeMemory, h]
      refine ⟨⟨freshId, writeSpace mt ctx,
        normalizeKind kind, pyStrip title, pyStrip content,
        normalizeCompact content cc, reconcileTags tags, pinned, now, now,
        some (clampImportance imp), normalizeWorkspaceHint wh,
        normalizeSource src⟩, ?_, rfl, rfl, rfl, rfl, rfl, rfl, rfl, rfl, rfl, rfl⟩
      rw [find?_append_of_none _ _ _ h,
        List.find?_cons_of_pos _ (by simp [writeKey])]
  | some m =>
      have hm : writeKey mt (writeSpace mt ctx)
          (normalizeKind kind) (pyStrip title) m = true := List.find?_some h
      have hkt : m.kind = normalizeKind kind ∧ m.title = pyStrip title := by
        simp only [writeKey, Bool.and_eq_true, beq_iff_eq] at hm
        exact ⟨hm.1.2, hm.2⟩
      simp only [writeMemory, h]
      rw [find?_updateFirst _ _ (fun x hx => by
        simpa only [writeKey, Bool.and_eq_true, beq_iff_eq] using
          (by simpa only [writeKey, Bool.and_eq_true, beq_iff_eq] using hx)), h]
      exact ⟨_, rfl, hkt.1, hkt.2, rfl, rfl, rfl, rfl, rfl, rfl, rfl, rfl⟩

/-- Helper: `write_memory` always reports `ok = true` and an action of
`created` or `updated`. -/
theorem writeMemory_ok_action (st : DBState) (freshId : Nat)
    (now kind title content : PyStr) (tags : List PyStr) (pinned : Bool)
    (cc wh : Option PyStr) (imp : Option Int) (src : Option PyStr)
    (mt : Bool) (ctx : Option Ctx) :
    (writeMemory st freshId now kind title content tags pinned cc wh imp src
        mt ctx).2.ok = true
    ∧ ((writeMemory st freshId now kind title content tags pinned cc wh imp src
        mt ctx).2.action = pys "created"
      ∨ (writeMemory st freshId now kind title content tags pinned cc wh imp src
        mt ctx).2.action = pys "updated") := by
  cases h : st.items.find?
      (writeKey mt (writeSpace mt ctx)
        (normalizeKind kind) (pyStrip title)) with
  | none => simp [writeMemory, h]
  | some m =>
      constructor
      · simp [writeMemory, h]
      · by_cases hcr : m.created_at = now
        · left; simp [writeMemory, h, hcr]
        · right; simp [writeMemory, h, hcr]

/-- Helper: membership in the reconciled tag-edge list. -/
theorem mem_reconcileAux (x : PyStr) : ∀ (ts acc : List PyStr),
    x ∈ reconcileAux acc ts ↔ x ∈ acc ∨ (x ∈ ts.map pyStrip ∧ x ≠ []) := by
  intro ts
  induction ts with
  | nil => intro acc; simp [reconcileAux]
  | cons t ts ih =>
      intro acc
      simp only [reconcileAux, List.map_cons]
      by_cases hc : pyStrip t ≠ [] ∧ pyStrip t ∉ acc
      · rw [if_pos hc, ih]
        constructor
        · rintro (hx | ⟨hm, hne⟩)
          · rcases List.mem_append.mp hx with hx | hx
            · exact Or.inl hx
            · have hxt : x = pyStrip t := List.mem_singleton.mp hx
              exact Or.inr ⟨List.mem_cons.mpr (Or.inl hxt), hxt ▸ hc.1⟩
          · exact Or.inr ⟨List.mem_cons.mpr (Or.inr hm), hne⟩
        · rintro (hx | ⟨hm, hne⟩)
          · exact Or.inl (List.mem_append.mpr (Or.inl hx))
          · rcases List.mem_cons.mp hm with hx | hx
            · exact Or.inl (List.mem_append.mpr (Or.inr (List.mem_singleton.mpr hx)))
            · exact Or.inr ⟨hx, hne⟩
      · rw [if_neg hc, ih]
        constructor
        · rintro (hx | ⟨hm, hne⟩)
          · exact Or.inl hx
          · exact Or.inr ⟨List.mem_cons.mpr (Or.inr hm), hne⟩
        · rintro (hx | ⟨hm, hne⟩)
          · exact Or.inl hx
          · rcases List.mem_cons.mp hm with hx | hx
            · rcases not_and_or.mp hc with hbad | hacc
              · exact absurd (hx.trans (not_not.mp hbad)) hne
              · exact Or.inl (hx ▸ (not_not.mp hacc))
            · exact Or.inr ⟨hx, hne⟩

/-- Helper: the reconciled tag-edge list has no duplicates. -/
theorem reconcileAux_nodup : ∀ (ts acc : List PyStr), acc.Nodup →
    (reconcileAux acc ts).Nodup := by
  intro ts
  induction ts with
  | nil => intro acc h; simpa [reconcileAux] using h
  | cons t ts ih =>
      intro acc h
      simp only [reconcileAux]
      by_cases hc : pyStrip t ≠ [] ∧ pyStrip t ∉ acc
      · rw [if_pos hc]
        apply ih
        rw [List.nodup_append]
        refine ⟨h, List.nodup_singleton _, ?_⟩
        intro a ha hb
        have : a = pyStrip t := by simpa using hb
        exact hc.2 (this ▸ ha)
      · rw [if_neg hc]
        exact ih acc h

/-- Helper: the reconciled tag edges, as a set, are exactly the trimmed
non-empty supplied tags; they are duplicate-free; and an all-blank tag list
reconciles to no edges. -/
theorem reconcileTags_spec (tags : List PyStr) :
    (reconcileTags tags).Nodup
    ∧ (reconcileTags tags).toFinset =
        ((tags.map pyStrip).filter (fun t => t ≠ [])).toFinset
    ∧ ((tags.map pyStrip).filter (fun t => t ≠ []) = [] → reconcileTags tags = []) := by
  refine ⟨reconcileAux_nodup tags [] (List.nodup_nil), ?_, ?_⟩
  · ext x
    simp only [List.mem_toFinset, List.mem_filter, decide_eq_true_eq]
    rw [reconcileTags, mem_reconcileAux]
    simp
  · intro h
    rw [reconcileTags]
    by_contra hne
    obtain ⟨x, hx⟩ := List.exists_mem_of_ne_nil _ hne
    rw [mem_reconcileAux] at hx
    rcases hx with hx | ⟨hm, hne'⟩
    · simp at hx
    · have : x ∈ (tags.map pyStrip).filter (fun t => t ≠ []) :=
        List.mem_filter.mpr ⟨hm, by simpa using hne'⟩
      rw [h] at this
      simp at this

/-! ## Isolation lemmas -/

/-- Helper: `contains` is false for a non-member. -/
theorem contains_eq_false_of_not_mem {l : List PyStr} {a : PyStr} (h : a ∉ l) :
    l.contains a = false := by
  induction l with
  | nil => rfl
  | cons x xs ih =>
      rw [List.mem_cons, not_or] at h
      simp [List.contains_cons, ih h.2, beq_eq_false_iff_ne.mpr h.1]
      exact h

/-- Helper: filtering is unchanged by updating an element the filter
rejects both before and after the update. -/
theorem filter_updateFirst {α : Type} (keyP p : α → Bool) (f : α → α)
    (h : ∀ x, keyP x = true → p x = false ∧ p (f x) = false) :
    ∀ l : List α, (updateFirst keyP f l).filter p = l.filter p := by
  intro l
  induction l with
  | nil => rfl
  | cons x xs ih =>
      by_cases hk : keyP x = true
      · obtain ⟨h1, h2⟩ := h x hk
        simp [updateFirst, hk, List.filter_cons, h1, h2]
      · have hk' : keyP x = false := by
          cases hkx : keyP x
          · rfl
          · exact absurd hkx hk
        simp [updateFirst, hk', List.filter_cons, ih]

/-- Helper: a multi-tenant write touches only items of its own space, so
any filter rejecting that space sees an unchanged item list. -/
theorem writeMemory_filter_inv (st : DBState) (freshId : Nat)
    (now kind title content : PyStr) (tags : List PyStr) (pinned : Bool)
    (cc wh : Option PyStr) (imp : Option Int) (src : Option PyStr)
    (ctx : Option Ctx) (p : Item → Bool)
    (hp : ∀ x : Item, x.space_id = writeSpace true ctx → p x = false) :
    (writeMemory st freshId now kind title content tags pinned cc wh imp src
        true ctx).1.items.filter p = st.items.filter p := by
  cases h : st.items.find?
      (writeKey true (writeSpace true ctx) (normalizeKind kind) (pyStrip title)) with
  | none =>
      simp only [writeMemory, h]
      rw [List.filter_append]
      have hnew : p ⟨freshId, writeSpace true ctx, normalizeKind kind,
          pyStrip title, pyStrip content, normalizeCompact content cc,
          reconcileTags tags, pinned, now, now, some (clampImportance imp),
          normalizeWorkspaceHint wh, normalizeSource src⟩ = false := hp _ rfl
      simp [List.filter_cons, hnew]
  | some m =>
      simp only [writeMemory, h]
      apply filter_updateFirst
      intro x hx
      have hxs : x.space_id = writeSpace true ctx := by
        simp only [writeKey, Bool.not_true, Bool.false_or, Bool.and_eq_true,
          beq_iff_eq] at hx
        exact hx.1.1
      exact ⟨hp x hxs, hp _ hxs⟩

/-- Helper: a write leaves the session nodes untouched. -/
theorem writeMemory_sessions (st : DBState) (freshId : Nat)
    (now kind title content : PyStr) (tags : List PyStr) (pinned : Bool)
    (cc wh : Option PyStr) (imp : Option Int) (src : Option PyStr)
    (mt : Bool) (ctx : Option Ctx) :
    (writeMemory st freshId now kind title content tags pinned cc wh imp src
        mt ctx).1.sessions = st.sessions := by
  cases h : st.items.find?
      (writeKey mt (writeSpace mt ctx) (normalizeKind kind) (pyStrip title)) with
  | none => simp [writeMemory, h]
  | some m => simp [writeMemory, h]

/-- Helper: the space filter on score pairs is the space filter on the
underlying items. -/
theorem filterMap_pair_filter (ft : Item → Option ℚ) (mt : Bool)
    (allowed : List PyStr) : ∀ l : List Item,
    ((l.filterMap (fun m => (ft m).map (fun s => (m, s)))).filter
        (primaryPairPred mt allowed))
      = ((l.filter (spaceOkPred mt allowed)).filterMap
          (fun m => (ft m).map (fun s => (m, s)))) := by
  intro l
  induction l with
  | nil => rfl
  | cons x xs ih =>
      by_cases hp : spaceOkPred mt allowed x = true
      · cases hf : ft x with
        | none => simp [List.filterMap_cons, hf, List.filter_cons, hp, ih]
        | some s =>
            simp [List.filterMap_cons, hf, List.filter_cons, hp, ih,
              primaryPairPred]
      · have hp' : spaceOkPred mt allowed x = false := by
          cases hx : spaceOkPred mt allowed x
          · rfl
          · exact absurd hx hp
        cases hf : ft x with
        | none => simp [List.filterMap_cons, hf, List.filter_cons, hp', ih]
        | some s =>
            simp [List.filterMap_cons, hf, List.filter_cons, hp', ih,
              primaryPairPred]

/-! ## Claim C1 -/

/-- Claim C1, counterexample.  `read_memory` performs no space filtering:
after a write under context A (space `A`), reading the created item's id
under context B (allowed spaces `[B]`, disjoint from A) returns the item —
an item written under A appears in a query result under B, and the result
of `read_memory` under B changed from `null` because of A's write. -/
theorem isolation_c1_counterexample :
    readMemory (⟨[], []⟩ : DBState) 7 Prefer.full (some ctxB) = none
    ∧ ((readMemory (writeMemory ⟨[], []⟩ 7 (pys "T") (pys "note") (pys "x")
          (pys "hello") [] false none none none none true (some ctxA)).1
        7 Prefer.full (some ctxB)).map (fun r => r.content_full)
        = some (pys "hello"))
    ∧ (deriveSpaceAndAllowed (some ctxA)).1 ∉ (deriveSpaceAndAllowed (some ctxB)).2 := by
  refine ⟨by decide, by decide, by decide⟩

/-- Claim C1 (amended): in multi-tenant mode, for contexts whose derived
spaces share no allowed spaces, a `write_memory` performed under A leaves
the results of `search_memory` (both the full-text and the fallback path),
`bootstrap`, and `last_session` under B unchanged; `read_memory` is the
exception — it performs no space filtering, so an item written under A *is*
returned by `read_memory` under B when queried by its id. -/
theorem isolation_c1_amended (st : DBState) (ctxA' ctxB' : Ctx)
    (freshId : Nat) (now kind title content : PyStr) (tags : List PyStr)
    (pinned : Bool) (cc wh : Option PyStr) (imp : Option Int)
    (src : Option PyStr)
    (hA : (deriveSpaceAndAllowed (some ctxA')).1 ∈ (deriveSpaceAndAllowed (some ctxA')).2)
    (hdisj : ∀ s : PyStr, s ∈ (deriveSpaceAndAllowed (some ctxA')).2 →
      s ∉ (deriveSpaceAndAllowed (some ctxB')).2) :
    (∀ (ft : Item → Option ℚ) (q : PyStr) (lim : Int) (prefer : Prefer) (sc : Nat),
      searchMemoryPrimary ft (writeMemory st freshId now kind title content tags
          pinned cc wh imp src true (some ctxA')).1.items q lim prefer sc true
          (some ctxB')
        = searchMemoryPrimary ft st.items q lim prefer sc true (some ctxB'))
    ∧ (∀ (q : PyStr) (lim : Int) (prefer : Prefer) (sc : Nat),
      searchMemoryFallback (writeMemory st freshId now kind title content tags
          pinned cc wh imp src true (some ctxA')).1.items q lim prefer sc true
          (some ctxB')
        = searchMemoryFallback st.items q lim prefer sc true (some ctxB'))
    ∧ (∀ (rank : List Item → List Item) (lp lr : Int) (whq : PyStr)
        (mode : BMode) (mtk mi : Int) (inc : Bool),
      bootstrap rank (writeMemory st freshId now kind title content tags
          pinned cc wh imp src true (some ctxA')).1 lp lr whq mode mtk mi inc
          true (some ctxB')
        = bootstrap rank st lp lr whq mode mtk mi inc true (some ctxB'))
    ∧ (∀ (whq : PyStr) (lim : Int),
      lastSession (writeMemory st freshId now kind title content tags
          pinned cc wh imp src true (some ctxA')).1.sessions whq lim true
          (some ctxB')
        = lastSession st.sessions whq lim true (some ctxB')) := by
  have hws : writeSpace true (some ctxA') = (deriveSpaceAndAllowed (some ctxA')).1 := rfl
  have hnotB : writeSpace true (some ctxA') ∉ (deriveSpaceAndAllowed (some ctxB')).2 := by
    rw [hws]
    exact hdisj _ hA
  have hspaceOk : ∀ x : Item, x.space_id = writeSpace true (some ctxA') →
      spaceOkPred true ((deriveSpaceAndAllowed (some ctxB')).2) x = false := by
    intro x hx
    simp [spaceOkPred, hx]
    exact hnotB
  refine ⟨?_, ?_, ?_, ?_⟩
  · intro ft q lim prefer sc
    by_cases hq : pyStrip q = []
    · simp [searchMemoryPrimary, hq]
    · simp only [searchMemoryPrimary]
      rw [if_neg hq, if_neg hq, filterMap_pair_filter, filterMap_pair_filter,
        writeMemory_filter_inv st freshId now kind title content tags pinned
          cc wh imp src (some ctxA') _ hspaceOk]
  · intro q lim prefer sc
    by_cases hq : pyStrip q = []
    · simp [searchMemoryFallback, hq]
    · simp only [searchMemoryFallback]
      have hP : ∀ x : Item, x.space_id = writeSpace true (some ctxA') →
          searchFallbackPred (pyStrip q) true
            ((deriveSpaceAndAllowed (some ctxB')).2) x = false := by
        intro x hx
        simp [searchFallbackPred, hspaceOk x hx]
      rw [if_neg hq, if_neg hq,
        writeMemory_filter_inv st freshId now kind title content tags pinned
          cc wh imp src (some ctxA') _ hP]
  · intro rank lp lr whq mode mtk mi inc
    have hP : ∀ x : Item, x.space_id = writeSpace true (some ctxA') →
        pinnedPred true ((deriveSpaceAndAllowed (some ctxB')).2) x = false := by
      intro x hx
      simp [pinnedPred, hspaceOk x hx]
    simp only [bootstrap]
    rw [writeMemory_filter_inv st freshId now kind title content tags pinned
          cc wh imp src (some ctxA') _ hP,
        writeMemory_filter_inv st freshId now kind title content tags pinned
          cc wh imp src (some ctxA') _ hspaceOk,
        writeMemory_sessions st freshId now kind title content tags pinned
          cc wh imp src true (some ctxA')]
  · intro whq lim
    rw [writeMemory_sessions st freshId now kind title content tags pinned
      cc wh imp src true (some ctxA')]

/-- Claim C1 amended, witness: a concrete write under space `A` leaves a
concrete fallback search under space `B` unchanged. -/
theorem isolation_c1_amended_witness :
    searchMemoryFallback (writeMemory ⟨[], []⟩ 7 (pys "T") (pys "note")
        (pys "x") (pys "hello") [] false none none none none true
        (some ctxA)).1.items (pys "hello") 8 Prefer.full 400 true (some ctxB)
      = searchMemoryFallback (⟨[], []⟩ : DBState).items (pys "hello") 8
          Prefer.full 400 true (some ctxB) :=
  (isolation_c1_amended ⟨[], []⟩ ctxA ctxB 7 (pys "T") (pys "note") (pys "x")
    (pys "hello") [] false none none none none (by decide)
    (by
      intro s hs hsB
      have h1 : s = pys "A" := by
        have he : (deriveSpaceAndAllowed (some ctxA)).2 = [pys "A"] := rfl
        rw [he, List.mem_singleton] at hs
        exact hs
      have h2 : s = pys "B" := by
        have he : (deriveSpaceAndAllowed (some ctxB)).2 = [pys "B"] := rfl
        rw [he, List.mem_singleton] at hsB
        exact hsB
      rw [h1] at h2
      exact absurd h2 (by decide))).2.1 (pys "hello") 8 Prefer.full 400

/-! ## Claim C5 -/

/-- Claim C5, counterexample.  Writing with the duplicate tag list
`["a", "a"]` produces a *single* `TAGGED_WITH` edge (Cypher `MERGE` is
idempotent), so the multiset of outgoing edges is `{a}`, not the supplied
trimmed multiset `{a, a}`. -/
theorem write_c5_counterexample :
    ((writeMemory ⟨[], []⟩ 7 (pys "T") (pys "note") (pys "x") (pys "c")
        [pys "a", pys "a"] false none none none none true (some ctxA)).1.items.find?
      (writeKey true (pys "A") (normalizeKind (pys "note")) (pyStrip (pys "x")))).map
      (fun w => w.tags) = some [[pys "a"].head!]
    ∧ (Multiset.ofList [pys "a"] ≠
        Multiset.ofList (([pys "a", pys "a"].map pyStrip).filter (fun t => t ≠ []))) := by
  refine ⟨by decide, by decide⟩

/-- Claim C5 (amended): after every `write_memory`, the outgoing
`TAGGED_WITH` edges of the written item are exactly the *deduplicated*
(first occurrence kept) trimmed non-empty supplied tags — stale edges from
earlier writes are removed first, so the result is independent of the prior
state; as a *set* the edges equal the trimmed non-empty supplied tags, the
edge list is duplicate-free, and an empty or all-blank tag list leaves the
item with no `TAGGED_WITH` edges. -/
theorem write_c5_amended (st : DBState) (freshId : Nat)
    (now kind title content : PyStr) (tags : List PyStr) (pinned : Bool)
    (cc wh : Option PyStr) (imp : Option Int) (src : Option PyStr)
    (mt : Bool) (ctx : Option Ctx) :
    (∃ w : Item,
      ((writeMemory st freshId now kind title content tags pinned cc wh imp src
          mt ctx).1.items.find?
        (writeKey mt (writeSpace mt ctx)
          (normalizeKind kind) (pyStrip title))) = some w
      ∧ w.tags = reconcileTags tags)
    ∧ (reconcileTags tags).Nodup
    ∧ (reconcileTags tags).toFinset =
        ((tags.map pyStrip).filter (fun t => t ≠ [])).toFinset
    ∧ ((tags.map pyStrip).filter (fun t => t ≠ []) = [] → reconcileTags tags = []) := by
  obtain ⟨w, hfind, _, _, _, _, htags, _⟩ :=
    writeMemory_found st freshId now kind title content tags pinned cc wh imp src mt ctx
  obtain ⟨hnd, hset, hemp⟩ := reconcileTags_spec tags
  exact ⟨⟨w, hfind, htags⟩, hnd, hset, hemp⟩

/-- Claim C5 amended, witness: an all-blank tag list yields no edges. -/
theorem write_c5_amended_witness : reconcileTags [pys " "] = [] :=
  (write_c5_amended ⟨[], []⟩ 1 (pys "T") (pys "note") (pys "x") (pys "c")
    [pys " "] false none none none none false none).2.2.2 (by decide)

/-! ## Claim C8 -/

/-- Claim C8: `write_memory` never rejects its input — it always reports
`ok = true` with action `created` or `updated`; the stored kind is the
lowercased trimmed kind when that lies in the allowed set and `note`
otherwise (so the stored kind is always valid); the stored importance is
clamped into `[0, 100]` and defaults to `50` when absent; and a malformed
`tags_json` string is coerced to the empty list by `_ensure_list`. -/
theorem write_c8 (st : DBState) (freshId : Nat)
    (now kind title content : PyStr) (tags : List PyStr) (pinned : Bool)
    (cc wh : Option PyStr) (imp : Option Int) (src : Option PyStr)
    (mt : Bool) (ctx : Option Ctx) (parseJson : PyStr → Option JVal) :
    (writeMemory st freshId now kind title content tags pinned cc wh imp src
        mt ctx).2.ok = true
    ∧ ((writeMemory st freshId now kind title content tags pinned cc wh imp src
        mt ctx).2.action = pys "created"
      ∨ (writeMemory st freshId now kind title content tags pinned cc wh imp src
        mt ctx).2.action = pys "updated")
    ∧ normalizeKind kind ∈ validKinds
    ∧ normalizeKind kind =
        (if pyLower (pyStrip kind) ∈ validKinds then pyLower (pyStrip kind)
         else pys "note")
    ∧ (∃ w : Item,
        ((writeMemory st freshId now kind title content tags pinned cc wh imp src
            mt ctx).1.items.find?
          (writeKey mt (writeSpace mt ctx)
            (normalizeKind kind) (pyStrip title))) = some w
        ∧ w.kind = normalizeKind kind
        ∧ w.importance = some (clampImportance imp))
    ∧ (0 ≤ clampImportance imp ∧ clampImportance imp ≤ 100)
    ∧ (imp = none → clampImportance imp = 50)
    ∧ (∀ s : PyStr, parseJson s = none →
        ensureList parseJson (JVal.jstr s) = []) := by
  obtain ⟨hok, hact⟩ :=
    writeMemory_ok_action st freshId now kind title content tags pinned cc wh imp src mt ctx
  obtain ⟨w, hfind, hkind, _, _, _, _, _, _, himp, _⟩ :=
    writeMemory_found st freshId now kind title content tags pinned cc wh imp src mt ctx
  refine ⟨hok, hact, ?_, rfl, ⟨w, hfind, hkind, himp⟩, ?_, ?_, ?_⟩
  · unfold normalizeKind
    by_cases h : pyLower (pyStrip kind) ∈ validKinds
    · rw [if_pos h]; exact h
    · rw [if_neg h]; decide
  · cases imp with
    | none => simp [clampImportance]
    | some i => simp only [clampImportance]; omega
  · intro h; rw [h]; rfl
  · intro s hp
    simp [ensureList, hp]

/-- Claim C8, witness: default importance and a malformed JSON string. -/
theorem write_c8_witness :
    clampImportance none = 50
    ∧ ensureList (fun _ => none) (JVal.jstr (pys "not json")) = [] :=
  ⟨(write_c8 ⟨[], []⟩ 1 (pys "T") (pys "NOTE") (pys "x") (pys "c") [] false
      none none none none false none (fun _ => none)).2.2.2.2.2.2.1 rfl,
   (write_c8 ⟨[], []⟩ 1 (pys "T") (pys "NOTE") (pys "x") (pys "c") [] false
      none none none none false none (fun _ => none)).2.2.2.2.2.2.2
     (pys "not json") rfl⟩

/-! ## Claim C9 -/

/-- Claim C9: `read_memory` returns `null` exactly when no `MemoryItem` has
the given id (not an error); when the item exists, the returned `content`
is the full stored content under `prefer="full"` and `content_compact` — or
`compact(content)` when `content_compact` is empty — under
`prefer="compact"`, and the result echoes `content_compact` and
`content_full` alongside all scalar attributes and the tags. -/
theorem read_c9 (st : DBState) (itemId : Nat) (prefer : Prefer) (ctx : Option Ctx) :
    (readMemory st itemId prefer ctx = none ↔ ∀ m ∈ st.items, m.nid ≠ itemId)
    ∧ (∀ r : ReadResult, readMemory st itemId prefer ctx = some r →
        (prefer = Prefer.full → r.content = r.content_full)
        ∧ (prefer = Prefer.compact → r.content =
            (if r.content_compact ≠ [] then r.content_compact
             else autoCompact r.content_full 200))
        ∧ ∃ m ∈ st.items, m.nid = itemId ∧ r.id = m.nid ∧ r.kind = m.kind ∧
            r.title = m.title ∧ r.content_full = m.content ∧
            r.content_compact = m.content_compact ∧ r.tags = m.tags ∧
            r.pinned = (if m.pinned then 1 else 0) ∧ r.updated_at = m.updated_at ∧
            r.created_at = m.created_at ∧ r.importance = m.importance ∧
            r.workspace_hint = m.workspace_hint ∧ r.source = m.source) := by
  cases h : st.items.find? (fun m => m.nid == itemId) with
  | none =>
      constructor
      · constructor
        · intro _ m hm heq
          have := List.find?_eq_none.mp h m hm
          simp [heq] at this
        · intro _; simp [readMemory, h]
      · intro r hr
        simp [readMemory, h] at hr
  | some m =>
      have hmem := List.mem_of_find?_eq_some h
      have hnid : m.nid = itemId := by
        have := List.find?_some h
        simpa using this
      constructor
      · constructor
        · intro hnone
          simp [readMemory, h] at hnone
        · intro hall
          exact absurd hnid (hall m hmem)
      · intro r hr
        simp only [readMemory, h] at hr
        have hre := (Option.some.inj hr).symm
        subst hre
        refine ⟨?_, ?_, m, hmem, hnid, rfl, rfl, rfl, rfl, rfl, rfl, rfl,
          rfl, rfl, rfl, rfl, rfl⟩
        · intro hp; subst hp; simp
        · intro hp; subst hp; simp

/-- Claim C9, witness: a missing id yields `null`; a present item read with
`prefer="full"` returns its full content. -/
theorem read_c9_witness :
    readMemory (⟨[], []⟩ : DBState) 5 Prefer.full none = none
    ∧ (⟨1, pys "note", pys "t", pys "full body", pys "short", pys "full body",
        [pys "x"], 1, pys "u", pys "c", some 60, pys "w",
        pys "agent"⟩ : ReadResult).content =
      (⟨1, pys "note", pys "t", pys "full body", pys "short", pys "full body",
        [pys "x"], 1, pys "u", pys "c", some 60, pys "w",
        pys "agent"⟩ : ReadResult).content_full :=
  ⟨(read_c9 ⟨[], []⟩ 5 Prefer.full none).1.mpr (by intro m hm; simp at hm),
   ((read_c9 c9St 1 Prefer.full none).2
      ⟨1, pys "note", pys "t", pys "full body", pys "short", pys "full body",
        [pys "x"], 1, pys "u", pys "c", some 60, pys "w", pys "agent"⟩
      (by decide)).1 rfl⟩

/-- Claim C4 amended, witness: importance 1 versus 2, all else equal. -/
theorem scoreItem_c4_amended_witness :
    scoreItem (fun _ => none) 0 (c4Item (some 1) []) (pys "global") <
      scoreItem (fun _ => none) 0 (c4Item (some 2) []) (pys "global") :=
  (scoreItem_c4_amended (fun _ => none) 0 (c4Item (some 1) [])
    (c4Item (some 2) []) (pys "global")).1
    rfl rfl rfl 1 2 rfl rfl (by norm_num) (by norm_num)

end Mnemosyne
